import Mathlib

/-!
Verification of the admissions-rank analytics core of the
college-recommended-system repository.

The Python module `analysis.py` (functions `calculate_trend`, `predict_rank`,
`calculate_volatility`, `get_risk_level`, `get_volatility_level`) and the
helper `calculate_admission_probability` from `app.py` are shallowly embedded
below.  Python floats are modelled as real numbers (exact real arithmetic),
Python ints as `ℤ`, `statistics.stdev` as the square root of the unbiased
sample variance, and Python's `int()` conversion as truncation toward zero
(`pytrunc`).  Chinese result strings are kept verbatim:
"上升" = RISING, "下降" = FALLING, "稳定" = STABLE,
"低风险"/"中风险"/"高风险" = LOW/MEDIUM/HIGH risk,
"低"/"中"/"高" = LOW/MEDIUM/HIGH volatility level.
-/

open Finset

/-- Python's `int()` applied to a float: truncation toward zero. -/
noncomputable def pytrunc (x : ℝ) : ℤ :=
  if 0 ≤ x then ⌊x⌋ else ⌈x⌉

/-- One row of the `admissions` table as returned by `get_historical_data`:
a dict with keys `year`, `min_score` (may be NULL) and `min_rank`. -/
structure Obs where
  year : ℤ
  min_score : Option ℤ
  min_rank : ℤ

/-- The dict returned by `predict_rank`, with keys
`predicted_rank`, `min` and `max`. -/
structure PredictOut where
  predicted_rank : ℤ
  min : ℤ
  max : ℤ
deriving DecidableEq

/-- Embedding of `analysis.calculate_trend`.  Returns the pair
(trend string, description string). -/
noncomputable def calculate_trend (data_list : List Obs) : String × String :=
  if data_list.length < 2 then
    ("稳定", "数据不足，无法判断趋势")
  else
    let ranks : List ℤ := data_list.map (fun d => d.min_rank)
    let n : ℕ := ranks.length
    let x_mean : ℝ := ((List.range n).map (fun (i : ℕ) => (i : ℝ))).sum / n
    let y_mean : ℝ := (ranks.map (fun (r : ℤ) => (r : ℝ))).sum / n
    let numerator : ℝ :=
      ((List.range n).map
        (fun (i : ℕ) => ((i : ℝ) - x_mean) * ((ranks.getD i 0 : ℝ) - y_mean))).sum
    let denominator : ℝ :=
      ((List.range n).map (fun (i : ℕ) => ((i : ℝ) - x_mean) ^ 2)).sum
    if denominator = 0 then
      ("稳定", "位次保持稳定")
    else
      let slope := numerator / denominator
      if slope < -100 then
        ("上升", "近" ++ toString n ++ "年位次持续上升，竞争加剧")
      else if slope > 100 then
        ("下降", "近" ++ toString n ++ "年位次持续下降，竞争降低")
      else
        ("稳定", "近" ++ toString n ++ "年位次相对稳定，波动不大")

/-- Embedding of `analysis.calculate_volatility`: `statistics.stdev`, the
unbiased sample standard deviation, and `0.0` for fewer than two ranks. -/
noncomputable def calculate_volatility (ranks : List ℤ) : ℝ :=
  if ranks.length < 2 then 0.0
  else
    let m : ℝ := (ranks.map (fun (r : ℤ) => (r : ℝ))).sum / ranks.length
    Real.sqrt ((ranks.map (fun (r : ℤ) => ((r : ℝ) - m) ^ 2)).sum /
      ((ranks.length : ℝ) - 1))

/-- Embedding of `analysis.predict_rank`. -/
noncomputable def predict_rank (historical_ranks : List ℤ) : PredictOut :=
  if historical_ranks.length < 2 then
    { predicted_rank := historical_ranks.headD 0
      min := historical_ranks.headD 0
      max := historical_ranks.headD 0 }
  else
    let n : ℕ := historical_ranks.length
    let x_mean : ℝ := ((List.range n).map (fun (i : ℕ) => (i : ℝ))).sum / n
    let y_mean : ℝ := (historical_ranks.map (fun (r : ℤ) => (r : ℝ))).sum / n
    let numerator : ℝ :=
      ((List.range n).map
        (fun (i : ℕ) => ((i : ℝ) - x_mean) *
          ((historical_ranks.getD i 0 : ℝ) - y_mean))).sum
    let denominator : ℝ :=
      ((List.range n).map (fun (i : ℕ) => ((i : ℝ) - x_mean) ^ 2)).sum
    if denominator = 0 then
      let avg_rank : ℤ := pytrunc y_mean
      let std_dev : ℝ := calculate_volatility historical_ranks
      { predicted_rank := avg_rank
        min := max 1 (pytrunc ((avg_rank : ℝ) - 1.5 * std_dev))
        max := pytrunc ((avg_rank : ℝ) + 1.5 * std_dev) }
    else
      let slope := numerator / denominator
      let intercept := y_mean - slope * x_mean
      let next_x : ℕ := n
      let predicted := slope * (next_x : ℝ) + intercept
      let std_dev : ℝ := calculate_volatility historical_ranks
      let confidence_interval := 1.5 * std_dev
      { predicted_rank := max 1 (pytrunc predicted)
        min := max 1 (pytrunc (predicted - confidence_interval))
        max := pytrunc (predicted + confidence_interval) }

/-- Embedding of `analysis.get_risk_level`. -/
noncomputable def get_risk_level (student_rank : ℤ) (predicted_rank : ℤ)
    (volatility : ℝ) : String :=
  let predicted_min : ℝ := (predicted_rank : ℝ) - 1.5 * volatility
  let predicted_max : ℝ := (predicted_rank : ℝ) + 1.5 * volatility
  if (student_rank : ℝ) < predicted_min then "低风险"
  else if (student_rank : ℝ) ≤ predicted_max then "中风险"
  else "高风险"

/-- Embedding of `analysis.get_volatility_level`. -/
noncomputable def get_volatility_level (volatility : ℝ) : String :=
  if volatility < 300 then "低"
  else if volatility < 800 then "中"
  else "高"

/-- Embedding of `app.calculate_admission_probability`. -/
noncomputable def calculate_admission_probability (student_rank : ℤ)
    (avg_rank : ℝ) : ℤ :=
  if avg_rank = 0 then 0
  else
    let ratio := (student_rank : ℝ) / avg_rank
    if ratio < 0.85 then 95
    else if ratio < 0.95 then 70
    else if ratio < 1.05 then 50
    else if ratio < 1.15 then 30
    else if ratio < 1.3 then 15
    else 5

/-! ### Specification-side formulations

Independent formulations of the ordinary-least-squares fit and the unbiased
sample standard deviation, written with `Finset.range` sums as in the spec
(§4.1–§4.3), to be compared with the list-based code above. -/

/-- The value at position `i` of a rank list (in-range access). -/
def listY (l : List ℤ) : ℕ → ℝ := fun i => (l.getD i 0 : ℝ)

/-- OLS slope of `y` against the 0-based index over `n` points. -/
noncomputable def olsSlope (n : ℕ) (y : ℕ → ℝ) : ℝ :=
  (∑ i ∈ Finset.range n,
      ((i : ℝ) - (∑ j ∈ Finset.range n, (j : ℝ)) / n) *
        (y i - (∑ j ∈ Finset.range n, y j) / n)) /
    ∑ i ∈ Finset.range n, ((i : ℝ) - (∑ j ∈ Finset.range n, (j : ℝ)) / n) ^ 2

/-- OLS intercept of `y` against the 0-based index over `n` points. -/
noncomputable def olsIntercept (n : ℕ) (y : ℕ → ℝ) : ℝ :=
  (∑ j ∈ Finset.range n, y j) / n -
    olsSlope n y * ((∑ j ∈ Finset.range n, (j : ℝ)) / n)

/-- The fitted OLS line evaluated at the next sequential index `n`. -/
noncomputable def olsPredictNext (n : ℕ) (y : ℕ → ℝ) : ℝ :=
  olsSlope n y * (n : ℝ) + olsIntercept n y

/-- Unbiased sample standard deviation of `y` over `n` points. -/
noncomputable def sampleStdev (n : ℕ) (y : ℕ → ℝ) : ℝ :=
  Real.sqrt ((∑ i ∈ Finset.range n,
    (y i - (∑ j ∈ Finset.range n, y j) / n) ^ 2) / ((n : ℝ) - 1))

/-- OLS slope of a rank list against the 0-based index. -/
noncomputable def specSlope (l : List ℤ) : ℝ := olsSlope l.length (listY l)

/-- OLS extrapolation of a rank list to the next index. -/
noncomputable def specPredict (l : List ℤ) : ℝ :=
  olsPredictNext l.length (listY l)

/-- Unbiased sample standard deviation of a rank list. -/
noncomputable def specStdev (l : List ℤ) : ℝ := sampleStdev l.length (listY l)

/-! ### Bridging lemmas between list sums and `Finset.range` sums -/

lemma list_range_map_sum (n : ℕ) (f : ℕ → ℝ) :
    ((List.range n).map f).sum = ∑ i ∈ Finset.range n, f i := by
  induction n with
  | zero => simp
  | succ n ih => simp [List.range_succ, Finset.sum_range_succ, ih]

lemma list_map_sum_eq_sum_getD (l : List ℤ) (f : ℤ → ℝ) :
    (l.map f).sum = ∑ i ∈ Finset.range l.length, f (l.getD i 0) := by
  induction l with
  | nil => simp
  | cons a t ih =>
      simp [Finset.sum_range_succ', ih, add_comm]

lemma sum_range_id_real (n : ℕ) :
    ∑ i ∈ Finset.range n, (i : ℝ) = n * (n - 1) / 2 := by
  induction n with
  | zero => simp
  | succ n ih =>
      rw [Finset.sum_range_succ, ih]
      push_cast
      ring

lemma sum_range_sq_real (n : ℕ) :
    ∑ i ∈ Finset.range n, (i : ℝ) ^ 2 = n * (n - 1) * (2 * n - 1) / 6 := by
  induction n with
  | zero => simp
  | succ n ih =>
      rw [Finset.sum_range_succ, ih]
      push_cast
      ring

/-! ### Properties of `pytrunc` -/

lemma pytrunc_of_nonneg {x : ℝ} (h : 0 ≤ x) : pytrunc x = ⌊x⌋ := by
  simp [pytrunc, h]

lemma pytrunc_mono {x y : ℝ} (h : x ≤ y) : pytrunc x ≤ pytrunc y := by
  unfold pytrunc
  by_cases h1 : 0 ≤ x
  · rw [if_pos h1, if_pos (h1.trans h)]
    exact Int.floor_le_floor h
  · rw [if_neg h1]
    by_cases h2 : 0 ≤ y
    · rw [if_pos h2]
      exact le_trans (Int.ceil_le.mpr (by exact_mod_cast le_of_not_le h1))
        (Int.floor_nonneg.mpr h2)
    · rw [if_neg h2]
      exact Int.ceil_le_ceil h

lemma one_le_pytrunc {x : ℝ} (h : 1 ≤ x) : 1 ≤ pytrunc x := by
  rw [pytrunc_of_nonneg (le_trans zero_le_one h)]
  exact_mod_cast Int.le_floor.mpr (by exact_mod_cast h)

lemma pytrunc_eq_of {x : ℝ} {k : ℤ} (h0 : 0 ≤ k) (h1 : (k : ℝ) ≤ x)
    (h2 : x < k + 1) : pytrunc x = k := by
  have hx : 0 ≤ x := le_trans (by exact_mod_cast h0) h1
  rw [pytrunc_of_nonneg hx]
  exact Int.floor_eq_iff.mpr ⟨h1, h2⟩

/-! ### Closed forms for the index sums of the OLS fit -/

lemma sum_sq_dev_index (n : ℕ) :
    ∑ i ∈ Finset.range n, ((i : ℝ) - ((n : ℝ) - 1) / 2) ^ 2
      = (n : ℝ) * ((n : ℝ) - 1) * ((n : ℝ) + 1) / 12 := by
  have h : ∀ i : ℕ, ((i : ℝ) - ((n : ℝ) - 1) / 2) ^ 2
      = (i : ℝ) ^ 2 - ((n : ℝ) - 1) * (i : ℝ) + (((n : ℝ) - 1) / 2) ^ 2 := by
    intro i; ring
  simp_rw [h]
  rw [Finset.sum_add_distrib, Finset.sum_sub_distrib, ← Finset.mul_sum,
    sum_range_sq_real, sum_range_id_real, Finset.sum_const, Finset.card_range,
    nsmul_eq_mul]
  ring

lemma sum_dev_prod (n : ℕ) (y : ℕ → ℝ) (hn : (n : ℝ) ≠ 0) :
    ∑ i ∈ Finset.range n,
        ((i : ℝ) - ((n : ℝ) - 1) / 2) * (y i - (∑ j ∈ Finset.range n, y j) / n)
      = (∑ i ∈ Finset.range n, (i : ℝ) * y i) -
        ((n : ℝ) - 1) / 2 * ∑ i ∈ Finset.range n, y i := by
  have h : ∀ i : ℕ,
      ((i : ℝ) - ((n : ℝ) - 1) / 2) * (y i - (∑ j ∈ Finset.range n, y j) / n)
        = ((i : ℝ) * y i - ((n : ℝ) - 1) / 2 * y i)
          - ((∑ j ∈ Finset.range n, y j) / n * (i : ℝ)
            - ((n : ℝ) - 1) / 2 * ((∑ j ∈ Finset.range n, y j) / n)) := by
    intro i; ring
  simp_rw [h]
  rw [Finset.sum_sub_distrib, Finset.sum_sub_distrib, Finset.sum_sub_distrib,
    ← Finset.mul_sum, ← Finset.mul_sum, sum_range_id_real, Finset.sum_const,
    Finset.card_range, nsmul_eq_mul]
  field_simp
  ring

lemma xbar_eq (n : ℕ) (hn : (n : ℝ) ≠ 0) :
    (∑ j ∈ Finset.range n, (j : ℝ)) / n = ((n : ℝ) - 1) / 2 := by
  rw [sum_range_id_real]
  field_simp
  ring

lemma olsSlope_eq (n : ℕ) (y : ℕ → ℝ) (hn0 : (n : ℝ) ≠ 0) :
    olsSlope n y = ((∑ i ∈ Finset.range n, (i : ℝ) * y i) -
        ((n : ℝ) - 1) / 2 * ∑ i ∈ Finset.range n, y i) /
      ((n : ℝ) * ((n : ℝ) - 1) * ((n : ℝ) + 1) / 12) := by
  unfold olsSlope
  simp only [xbar_eq n hn0]
  rw [sum_dev_prod n y hn0, sum_sq_dev_index n]

lemma olsPredictNext_weighted (n : ℕ) (y : ℕ → ℝ) (hn : 2 ≤ n) :
    olsPredictNext n y = ∑ i ∈ Finset.range n,
      2 * (3 * (i : ℝ) - (n : ℝ) + 1) / ((n : ℝ) * ((n : ℝ) - 1)) * y i := by
  have hn2 : (2 : ℝ) ≤ (n : ℝ) := by exact_mod_cast hn
  have hn0 : (n : ℝ) ≠ 0 := by linarith
  have hn1 : (n : ℝ) - 1 ≠ 0 := by linarith
  have hnp : (n : ℝ) + 1 ≠ 0 := by linarith
  unfold olsPredictNext olsIntercept
  rw [olsSlope_eq n y hn0]
  simp only [xbar_eq n hn0]
  have h : ∀ i : ℕ,
      2 * (3 * (i : ℝ) - (n : ℝ) + 1) / ((n : ℝ) * ((n : ℝ) - 1)) * y i
        = 6 / ((n : ℝ) * ((n : ℝ) - 1)) * ((i : ℝ) * y i)
          + 2 * (1 - (n : ℝ)) / ((n : ℝ) * ((n : ℝ) - 1)) * y i := by
    intro i; ring
  simp_rw [h]
  rw [Finset.sum_add_distrib, ← Finset.mul_sum, ← Finset.mul_sum]
  field_simp
  ring

lemma lambda_sum (n : ℕ) (hn : 2 ≤ n) :
    ∑ i ∈ Finset.range n, 2 * (i : ℝ) / ((n : ℝ) * ((n : ℝ) - 1)) = 1 := by
  have hn2 : (2 : ℝ) ≤ (n : ℝ) := by exact_mod_cast hn
  have hn0 : (n : ℝ) ≠ 0 := by linarith
  have hn1 : (n : ℝ) - 1 ≠ 0 := by linarith
  have h : ∀ i : ℕ, 2 * (i : ℝ) / ((n : ℝ) * ((n : ℝ) - 1))
      = 2 / ((n : ℝ) * ((n : ℝ) - 1)) * (i : ℝ) := by
    intro i; ring
  simp_rw [h]
  rw [← Finset.mul_sum, sum_range_id_real]
  field_simp

lemma d_sum_zero (n : ℕ) (hn : 2 ≤ n) :
    ∑ i ∈ Finset.range n,
      2 * ((n : ℝ) - 1 - 2 * (i : ℝ)) / ((n : ℝ) * ((n : ℝ) - 1)) = 0 := by
  have hn2 : (2 : ℝ) ≤ (n : ℝ) := by exact_mod_cast hn
  have hn0 : (n : ℝ) ≠ 0 := by linarith
  have hn1 : (n : ℝ) - 1 ≠ 0 := by linarith
  have h : ∀ i : ℕ,
      2 * ((n : ℝ) - 1 - 2 * (i : ℝ)) / ((n : ℝ) * ((n : ℝ) - 1))
        = 2 * ((n : ℝ) - 1) / ((n : ℝ) * ((n : ℝ) - 1))
          - 4 / ((n : ℝ) * ((n : ℝ) - 1)) * (i : ℝ) := by
    intro i; ring
  simp_rw [h]
  rw [Finset.sum_sub_distrib, ← Finset.mul_sum, sum_range_id_real,
    Finset.sum_const, Finset.card_range, nsmul_eq_mul]
  field_simp
  ring

lemma d_sq_sum (n : ℕ) (hn : 2 ≤ n) :
    ∑ i ∈ Finset.range n,
      (2 * ((n : ℝ) - 1 - 2 * (i : ℝ)) / ((n : ℝ) * ((n : ℝ) - 1))) ^ 2
        = 4 * ((n : ℝ) + 1) / (3 * (n : ℝ) * ((n : ℝ) - 1)) := by
  have hn2 : (2 : ℝ) ≤ (n : ℝ) := by exact_mod_cast hn
  have hn0 : (n : ℝ) ≠ 0 := by linarith
  have hn1 : (n : ℝ) - 1 ≠ 0 := by linarith
  have h : ∀ i : ℕ,
      (2 * ((n : ℝ) - 1 - 2 * (i : ℝ)) / ((n : ℝ) * ((n : ℝ) - 1))) ^ 2
        = (2 * ((n : ℝ) - 1) / ((n : ℝ) * ((n : ℝ) - 1))) ^ 2
          - 16 * ((n : ℝ) - 1) / ((n : ℝ) * ((n : ℝ) - 1)) ^ 2 * (i : ℝ)
          + 16 / ((n : ℝ) * ((n : ℝ) - 1)) ^ 2 * (i : ℝ) ^ 2 := by
    intro i
    field_simp
    ring
  simp_rw [h]
  rw [Finset.sum_add_distrib, Finset.sum_sub_distrib, ← Finset.mul_sum,
    ← Finset.mul_sum, Finset.sum_const, Finset.card_range, nsmul_eq_mul,
    sum_range_sq_real, sum_range_id_real]
  field_simp
  ring

/-- Core inequality behind the `PredictionResult` invariant: when every rank
is at least 1, the OLS extrapolation plus 1.5 sample standard deviations is
at least 1.  Proved by bounding the prediction, a weighted sum of the data,
against the nonnegative weight vector 2i/(n(n-1)) via Cauchy-Schwarz. -/
lemma one_le_olsPredictNext_add_band (n : ℕ) (y : ℕ → ℝ) (hn : 2 ≤ n)
    (hy : ∀ i, i < n → 1 ≤ y i) :
    1 ≤ olsPredictNext n y + 1.5 * sampleStdev n y := by
  have hn2 : (2 : ℝ) ≤ (n : ℝ) := by exact_mod_cast hn
  have hn0 : (n : ℝ) ≠ 0 := by linarith
  have hn1 : (0 : ℝ) < (n : ℝ) - 1 := by linarith
  set Q : ℝ :=
    ∑ i ∈ Finset.range n, (y i - (∑ j ∈ Finset.range n, y j) / (n : ℝ)) ^ 2
    with hQdef
  have hQ0 : 0 ≤ Q :=
    Finset.sum_nonneg fun i _ => sq_nonneg _
  have hσ0 : 0 ≤ sampleStdev n y := Real.sqrt_nonneg _
  have hσsq : sampleStdev n y ^ 2 = Q / ((n : ℝ) - 1) := by
    unfold sampleStdev
    rw [← hQdef]
    exact Real.sq_sqrt (div_nonneg hQ0 hn1.le)
  rw [olsPredictNext_weighted n y hn]
  have hw : ∀ i : ℕ,
      2 * (3 * (i : ℝ) - (n : ℝ) + 1) / ((n : ℝ) * ((n : ℝ) - 1)) * y i
        = 2 * (i : ℝ) / ((n : ℝ) * ((n : ℝ) - 1)) * y i
          - 2 * ((n : ℝ) - 1 - 2 * (i : ℝ)) / ((n : ℝ) * ((n : ℝ) - 1)) * y i := by
    intro i; ring
  simp_rw [hw]
  rw [Finset.sum_sub_distrib]
  have hlam : 1 ≤ ∑ i ∈ Finset.range n,
      2 * (i : ℝ) / ((n : ℝ) * ((n : ℝ) - 1)) * y i := by
    calc (1 : ℝ)
        = ∑ i ∈ Finset.range n, 2 * (i : ℝ) / ((n : ℝ) * ((n : ℝ) - 1)) :=
          (lambda_sum n hn).symm
      _ ≤ _ := by
          refine Finset.sum_le_sum fun i hi => ?_
          have hyi := hy i (Finset.mem_range.mp hi)
          have hl : 0 ≤ 2 * (i : ℝ) / ((n : ℝ) * ((n : ℝ) - 1)) := by
            have hpos : (0 : ℝ) < (n : ℝ) * ((n : ℝ) - 1) := by nlinarith
            positivity
          nlinarith [mul_nonneg hl (by linarith : (0 : ℝ) ≤ y i - 1)]
  set A : ℝ := ∑ i ∈ Finset.range n,
      2 * ((n : ℝ) - 1 - 2 * (i : ℝ)) / ((n : ℝ) * ((n : ℝ) - 1)) * y i
    with hAdef
  have hps : ∀ i : ℕ,
      2 * ((n : ℝ) - 1 - 2 * (i : ℝ)) / ((n : ℝ) * ((n : ℝ) - 1)) *
          (y i - (∑ j ∈ Finset.range n, y j) / (n : ℝ))
        = 2 * ((n : ℝ) - 1 - 2 * (i : ℝ)) / ((n : ℝ) * ((n : ℝ) - 1)) * y i
          - 2 * ((n : ℝ) - 1 - 2 * (i : ℝ)) / ((n : ℝ) * ((n : ℝ) - 1)) *
            ((∑ j ∈ Finset.range n, y j) / (n : ℝ)) :=
    fun i => mul_sub _ _ _
  have hA_dev : A = ∑ i ∈ Finset.range n,
      2 * ((n : ℝ) - 1 - 2 * (i : ℝ)) / ((n : ℝ) * ((n : ℝ) - 1)) *
        (y i - (∑ j ∈ Finset.range n, y j) / (n : ℝ)) := by
    simp_rw [hps]
    rw [Finset.sum_sub_distrib, ← Finset.sum_mul, d_sum_zero n hn, hAdef,
      zero_mul, sub_zero]
  have hCS : A ^ 2 ≤ (4 * ((n : ℝ) + 1) / (3 * (n : ℝ) * ((n : ℝ) - 1))) * Q := by
    rw [hA_dev, hQdef]
    have := Finset.sum_mul_sq_le_sq_mul_sq (Finset.range n)
      (fun i => 2 * ((n : ℝ) - 1 - 2 * (i : ℝ)) / ((n : ℝ) * ((n : ℝ) - 1)))
      (fun i => y i - (∑ j ∈ Finset.range n, y j) / (n : ℝ))
    rw [d_sq_sum n hn] at this
    exact this
  have hbound : 4 * ((n : ℝ) + 1) / (3 * (n : ℝ) * ((n : ℝ) - 1))
      ≤ 9 / (4 * ((n : ℝ) - 1)) := by
    rw [div_le_div_iff₀ (by nlinarith) (by nlinarith)]
    nlinarith
  have hA2 : A ^ 2 ≤ 9 / 4 * sampleStdev n y ^ 2 := by
    rw [hσsq]
    calc A ^ 2 ≤ (4 * ((n : ℝ) + 1) / (3 * (n : ℝ) * ((n : ℝ) - 1))) * Q := hCS
      _ ≤ 9 / (4 * ((n : ℝ) - 1)) * Q := mul_le_mul_of_nonneg_right hbound hQ0
      _ = 9 / 4 * (Q / ((n : ℝ) - 1)) := by
          field_simp
  have hA_le : A ≤ 3 / 2 * sampleStdev n y := by
    nlinarith [hA2, hσ0, sq_nonneg (A - 3 / 2 * sampleStdev n y),
      sq_nonneg (A + 3 / 2 * sampleStdev n y)]
  linarith

/-! ### Relating the list-based code to the `Finset`-based formulations -/

lemma den_ne_zero (n : ℕ) (hn : 2 ≤ n) :
    (∑ i ∈ Finset.range n,
      ((i : ℝ) - (∑ j ∈ Finset.range n, (j : ℝ)) / (n : ℝ)) ^ 2) ≠ 0 := by
  have hn2 : (2 : ℝ) ≤ (n : ℝ) := by exact_mod_cast hn
  have hn0 : (n : ℝ) ≠ 0 := by linarith
  simp only [xbar_eq n hn0]
  rw [sum_sq_dev_index n]
  have h1 : (0 : ℝ) < (n : ℝ) := by linarith
  have h2 : (0 : ℝ) < (n : ℝ) - 1 := by linarith
  have h3 : (0 : ℝ) < (n : ℝ) + 1 := by linarith
  have h12 : (0 : ℝ) < 12 := by norm_num
  exact ne_of_gt (div_pos (mul_pos (mul_pos h1 h2) h3) h12)

lemma volatility_eq_specStdev (l : List ℤ) (hl : 2 ≤ l.length) :
    calculate_volatility l = specStdev l := by
  unfold calculate_volatility specStdev sampleStdev listY
  rw [if_neg (by omega : ¬ l.length < 2)]
  simp only [list_map_sum_eq_sum_getD]

lemma specPredict_shape (l : List ℤ) :
    (∑ i ∈ Finset.range l.length,
        ((i : ℝ) - (∑ j ∈ Finset.range l.length, (j : ℝ)) / (l.length : ℝ)) *
          ((l.getD i 0 : ℝ) -
            (∑ j ∈ Finset.range l.length, (l.getD j 0 : ℝ)) / (l.length : ℝ))) /
      (∑ i ∈ Finset.range l.length,
        ((i : ℝ) - (∑ j ∈ Finset.range l.length, (j : ℝ)) / (l.length : ℝ)) ^ 2) *
      (l.length : ℝ) +
      ((∑ j ∈ Finset.range l.length, (l.getD j 0 : ℝ)) / (l.length : ℝ) -
        (∑ i ∈ Finset.range l.length,
          ((i : ℝ) - (∑ j ∈ Finset.range l.length, (j : ℝ)) / (l.length : ℝ)) *
            ((l.getD i 0 : ℝ) -
              (∑ j ∈ Finset.range l.length, (l.getD j 0 : ℝ)) / (l.length : ℝ))) /
        (∑ i ∈ Finset.range l.length,
          ((i : ℝ) - (∑ j ∈ Finset.range l.length, (j : ℝ)) / (l.length : ℝ)) ^ 2) *
        ((∑ j ∈ Finset.range l.length, (j : ℝ)) / (l.length : ℝ)))
      = specPredict l := rfl

lemma predict_rank_eq (l : List ℤ) (hl : 2 ≤ l.length) :
    predict_rank l =
      { predicted_rank := max 1 (pytrunc (specPredict l))
        min := max 1 (pytrunc (specPredict l - 1.5 * specStdev l))
        max := pytrunc (specPredict l + 1.5 * specStdev l) } := by
  unfold predict_rank
  rw [if_neg (by omega : ¬ l.length < 2)]
  simp only [list_range_map_sum, list_map_sum_eq_sum_getD]
  rw [if_neg (den_ne_zero l.length hl)]
  rw [volatility_eq_specStdev l hl]
  rw [specPredict_shape l]

lemma calculate_trend_fst (l : List Obs) (hl : 2 ≤ l.length) :
    (calculate_trend l).1 =
      if specSlope (l.map (fun d => d.min_rank)) < -100 then "上升"
      else if specSlope (l.map (fun d => d.min_rank)) > 100 then "下降"
      else "稳定" := by
  unfold calculate_trend specSlope olsSlope listY
  rw [if_neg (by omega : ¬ l.length < 2)]
  simp only [list_range_map_sum, list_map_sum_eq_sum_getD, List.length_map]
  rw [if_neg (den_ne_zero l.length hl)]
  split_ifs <;> rfl

lemma getD_ge_one {l : List ℤ} (hpos : ∀ r ∈ l, 1 ≤ r) {i : ℕ}
    (hi : i < l.length) : 1 ≤ listY l i := by
  unfold listY
  rw [List.getD_eq_getElem l 0 hi]
  exact_mod_cast hpos _ (l.getElem_mem hi)

lemma specStdev_nonneg (l : List ℤ) : 0 ≤ specStdev l := Real.sqrt_nonneg _

/-- The band inequality carried over to lists of positive ranks. -/
lemma one_le_specPredict_add_band (l : List ℤ) (hl : 2 ≤ l.length)
    (hpos : ∀ r ∈ l, 1 ≤ r) :
    1 ≤ specPredict l + 1.5 * specStdev l :=
  one_le_olsPredictNext_add_band l.length (listY l) hl
    (fun _ hi => getD_ge_one hpos hi)

/-! ### Claim C2 -/

/-- C2 counterexample: the claim asserts range_min ≥ 1 for every input rank
sequence, but on the empty sequence `predict_rank` returns the sentinel
`{predicted_rank := 0, min := 0, max := 0}`, whose range_min is 0. -/
theorem C2_empty_range_min_not_floored :
    ¬ (1 ≤ (predict_rank ([] : List ℤ)).min) := by
  norm_num [predict_rank]

/-- C2 (amended): for every sequence of positive ranks, the PredictionResult
satisfies range_min ≤ predicted_rank ≤ range_max, and range_min ≥ 1 whenever
the sequence is nonempty (the empty sequence yields the all-zero sentinel). -/
theorem C2_prediction_invariant (l : List ℤ) (hpos : ∀ r ∈ l, 1 ≤ r) :
    (predict_rank l).min ≤ (predict_rank l).predicted_rank ∧
      (predict_rank l).predicted_rank ≤ (predict_rank l).max ∧
      (l ≠ [] → 1 ≤ (predict_rank l).min) := by
  match l with
  | [] =>
      refine ⟨le_refl _, le_refl _, fun h => absurd rfl h⟩
  | [a] =>
      have ha : 1 ≤ a := hpos a (by simp)
      have he : predict_rank [a] = ⟨a, a, a⟩ := rfl
      rw [he]
      exact ⟨le_refl _, le_refl _, fun _ => ha⟩
  | a :: b :: t =>
      have hl2 : 2 ≤ (a :: b :: t).length := by simp
      have hpos' : ∀ r ∈ (a :: b :: t), 1 ≤ r := hpos
      rw [predict_rank_eq (a :: b :: t) hl2]
      have hband := one_le_specPredict_add_band (a :: b :: t) hl2 hpos'
      have hσ := specStdev_nonneg (a :: b :: t)
      refine ⟨?_, ?_, fun _ => le_max_left _ _⟩
      · exact max_le_max (le_refl 1) (pytrunc_mono (by linarith))
      · exact max_le (one_le_pytrunc (by linarith))
          (pytrunc_mono (by linarith))

/-- Witness for C2 (amended) at the concrete input [3, 4]. -/
theorem C2_prediction_invariant_witness :
    (∀ r ∈ ([3, 4] : List ℤ), 1 ≤ r) ∧
      ((predict_rank [3, 4]).min ≤ (predict_rank [3, 4]).predicted_rank ∧
        (predict_rank [3, 4]).predicted_rank ≤ (predict_rank [3, 4]).max ∧
        (([3, 4] : List ℤ) ≠ [] → 1 ≤ (predict_rank [3, 4]).min)) :=
  ⟨by decide, C2_prediction_invariant [3, 4] (by decide)⟩

/-! ### Claim C8 -/

/-- C8: `predict_rank` is total on degenerate inputs: the empty sequence
yields the sentinel {0, 0, 0} and a one-element sequence [v] yields
{v, v, v}. -/
theorem C8_degenerate_inputs :
    predict_rank ([] : List ℤ) = ⟨0, 0, 0⟩ ∧
      ∀ v : ℤ, predict_rank [v] = ⟨v, v, v⟩ :=
  ⟨rfl, fun _ => rfl⟩

/-! ### Claim C5 -/

/-- C5: `calculate_trend` returns STABLE ("稳定") for sequences of length
0 or 1; for length ≥ 2 it returns RISING ("上升") iff the OLS slope of rank
against the 0-based index is < -100, FALLING ("下降") iff the slope is
> 100, and STABLE otherwise (the zero-denominator guard is unreachable for
n ≥ 2 since the index variance is positive). -/
theorem C5_trend_classification (l : List Obs) :
    (l.length < 2 → (calculate_trend l).1 = "稳定") ∧
      (2 ≤ l.length →
        ((calculate_trend l).1 = "上升" ↔
          specSlope (l.map (fun d => d.min_rank)) < -100) ∧
        ((calculate_trend l).1 = "下降" ↔
          100 < specSlope (l.map (fun d => d.min_rank))) ∧
        ((calculate_trend l).1 = "稳定" ↔
          (-100 ≤ specSlope (l.map (fun d => d.min_rank)) ∧
            specSlope (l.map (fun d => d.min_rank)) ≤ 100))) := by
  constructor
  · intro h
    unfold calculate_trend
    rw [if_pos h]
  · intro h
    rw [calculate_trend_fst l h]
    set s := specSlope (l.map (fun d => d.min_rank)) with hs
    split_ifs with h1 h2
    · exact ⟨iff_of_true rfl h1,
        iff_of_false (by decide) (by intro hgt; linarith),
        iff_of_false (by decide) (fun hc => absurd h1 (not_lt.mpr hc.1))⟩
    · exact ⟨iff_of_false (by decide) h1,
        iff_of_true rfl h2,
        iff_of_false (by decide) (fun hc => absurd h2 (not_lt.mpr hc.2))⟩
    · exact ⟨iff_of_false (by decide) h1,
        iff_of_false (by decide) h2,
        iff_of_true rfl ⟨by linarith [not_lt.mp h1], by linarith [not_lt.mp h2]⟩⟩

/-! ### Concrete evaluations for the end-to-end scenario [4000, 4500, 5200] -/

lemma c1_slope : specSlope [4000, 4500, 5200] = 600 := by
  unfold specSlope olsSlope listY
  norm_num [Finset.sum_range_succ]

lemma c1_predict : specPredict [4000, 4500, 5200] = 17300 / 3 := by
  unfold specPredict olsPredictNext olsIntercept olsSlope listY
  norm_num [Finset.sum_range_succ]

lemma c1_stdev : specStdev [4000, 4500, 5200] = Real.sqrt (1090000 / 3) := by
  unfold specStdev sampleStdev listY
  norm_num [Finset.sum_range_succ]

lemma c1_stdev_lb : 602.77 < specStdev [4000, 4500, 5200] := by
  rw [c1_stdev]
  have h0 : (0 : ℝ) ≤ 1090000 / 3 := by norm_num
  have hs : Real.sqrt (1090000 / 3) ^ 2 = 1090000 / 3 := Real.sq_sqrt h0
  have hs0 : 0 ≤ Real.sqrt (1090000 / 3) := Real.sqrt_nonneg _
  nlinarith [hs, hs0]

lemma c1_stdev_ub : specStdev [4000, 4500, 5200] < 602.78 := by
  rw [c1_stdev]
  have h0 : (0 : ℝ) ≤ 1090000 / 3 := by norm_num
  have hs : Real.sqrt (1090000 / 3) ^ 2 = 1090000 / 3 := Real.sq_sqrt h0
  have hs0 : 0 ≤ Real.sqrt (1090000 / 3) := Real.sqrt_nonneg _
  nlinarith [hs, hs0]

lemma c1_volatility :
    calculate_volatility [4000, 4500, 5200] = specStdev [4000, 4500, 5200] :=
  volatility_eq_specStdev _ (by norm_num)

lemma c1_predict_rank_fields :
    predict_rank [4000, 4500, 5200] =
      { predicted_rank := 5766, min := 4862, max := 6670 } := by
  rw [predict_rank_eq [4000, 4500, 5200] (by norm_num), c1_predict]
  have hlb := c1_stdev_lb
  have hub := c1_stdev_ub
  have h1 : pytrunc (17300 / 3 : ℝ) = 5766 := by
    apply pytrunc_eq_of (by norm_num) (by norm_num)
    push_cast
    norm_num
  have h2 : pytrunc ((17300 / 3 : ℝ) - 1.5 * specStdev [4000, 4500, 5200])
      = 4862 := by
    apply pytrunc_eq_of (by norm_num) (by push_cast; linarith) (by push_cast; linarith)
  have h3 : pytrunc ((17300 / 3 : ℝ) + 1.5 * specStdev [4000, 4500, 5200])
      = 6670 := by
    apply pytrunc_eq_of (by norm_num) (by push_cast; linarith) (by push_cast; linarith)
  rw [h1, h2, h3]
  norm_num

lemma c1_risk_6200 :
    get_risk_level 6200 5766 (specStdev [4000, 4500, 5200]) = "中风险" := by
  have hlb := c1_stdev_lb
  have hub := c1_stdev_ub
  unfold get_risk_level
  rw [if_neg (by push_cast; linarith), if_pos (by push_cast; linarith)]

lemma c1_risk_4600 :
    get_risk_level 4600 5766 (specStdev [4000, 4500, 5200]) = "低风险" := by
  have hub := c1_stdev_ub
  unfold get_risk_level
  rw [if_pos (by push_cast; linarith)]

lemma c1_vol_level :
    get_volatility_level (specStdev [4000, 4500, 5200]) = "中" := by
  have hlb := c1_stdev_lb
  have hub := c1_stdev_ub
  unfold get_volatility_level
  rw [if_neg (not_lt.mpr (by linarith)), if_pos (by linarith)]

/-! ### Claim C1 -/

/-- C1 counterexample: on ranks [4000, 4500, 5200] the claim asserts risk
HIGH for candidate 6200 and MEDIUM for 4600, but the code returns MEDIUM
("中风险") for 6200 (6200 does not exceed predicted_rank + 1.5·volatility
≈ 6670.16) and LOW ("低风险") for 4600 (4600 lies strictly below
predicted_rank − 1.5·volatility ≈ 4861.84). -/
theorem C1_risk_tier_counterexample :
    get_risk_level 6200 (predict_rank [4000, 4500, 5200]).predicted_rank
        (calculate_volatility [4000, 4500, 5200]) ≠ "高风险" ∧
      get_risk_level 4600 (predict_rank [4000, 4500, 5200]).predicted_rank
        (calculate_volatility [4000, 4500, 5200]) ≠ "中风险" := by
  rw [c1_predict_rank_fields, c1_volatility]
  constructor
  · show get_risk_level 6200 5766 (specStdev [4000, 4500, 5200]) ≠ "高风险"
    rw [c1_risk_6200]
    decide
  · show get_risk_level 4600 5766 (specStdev [4000, 4500, 5200]) ≠ "中风险"
    rw [c1_risk_4600]
    decide

/-- C1 (amended): end-to-end on ranks [4000, 4500, 5200]: trend FALLING
("下降"), volatility = √(1090000/3) ≈ 602.77 (sample standard deviation),
volatility level MEDIUM ("中"), predicted_rank = 5766 (the OLS
extrapolation 17300/3 at index 3, truncated), risk tier MEDIUM ("中风险")
for candidate 6200 (inside the band) and LOW ("低风险") for candidate 4600
(strictly below the band). -/
theorem C1_end_to_end :
    (calculate_trend [⟨2021, none, 4000⟩, ⟨2022, none, 4500⟩,
        ⟨2023, none, 5200⟩]).1 = "下降" ∧
      calculate_volatility [4000, 4500, 5200] = Real.sqrt (1090000 / 3) ∧
      602 < calculate_volatility [4000, 4500, 5200] ∧
      calculate_volatility [4000, 4500, 5200] < 603 ∧
      get_volatility_level (calculate_volatility [4000, 4500, 5200]) = "中" ∧
      specPredict [4000, 4500, 5200] = 17300 / 3 ∧
      (predict_rank [4000, 4500, 5200]).predicted_rank = 5766 ∧
      get_risk_level 6200 (predict_rank [4000, 4500, 5200]).predicted_rank
        (calculate_volatility [4000, 4500, 5200]) = "中风险" ∧
      get_risk_level 4600 (predict_rank [4000, 4500, 5200]).predicted_rank
        (calculate_volatility [4000, 4500, 5200]) = "低风险" := by
  have hm : ([⟨2021, none, 4000⟩, ⟨2022, none, 4500⟩,
      ⟨2023, none, 5200⟩] : List Obs).map (fun d => d.min_rank)
        = [4000, 4500, 5200] := rfl
  refine ⟨?_, ?_, ?_, ?_, ?_, c1_predict, ?_, ?_, ?_⟩
  · rw [calculate_trend_fst _ (by norm_num), hm, c1_slope,
      if_neg (by norm_num), if_pos (by norm_num)]
  · rw [c1_volatility, c1_stdev]
  · rw [c1_volatility]
    linarith [c1_stdev_lb]
  · rw [c1_volatility]
    linarith [c1_stdev_ub]
  · rw [c1_volatility]
    exact c1_vol_level
  · rw [c1_predict_rank_fields]
  · rw [c1_predict_rank_fields, c1_volatility]
    exact c1_risk_6200
  · rw [c1_predict_rank_fields, c1_volatility]
    exact c1_risk_4600

/-! ### Claim C3 -/

/-- C3 counterexample: the claim asserts predicted_rank = max(1,
round(predicted)) with rounding to the nearest integer; on [4000, 4500,
5200] the OLS extrapolation is 17300/3 ≈ 5766.67, which rounds to 5767,
but the code truncates (`int()`) and returns 5766. -/
theorem C3_round_counterexample :
    specPredict [4000, 4500, 5200] = 17300 / 3 ∧
      max 1 (round ((17300 : ℝ) / 3)) = 5767 ∧
      (predict_rank [4000, 4500, 5200]).predicted_rank ≠
        max 1 (round ((17300 : ℝ) / 3)) := by
  have hr : round ((17300 : ℝ) / 3) = 5767 := by
    rw [round_eq]
    norm_num
  refine ⟨c1_predict, ?_, ?_⟩
  · rw [hr]
    norm_num
  · rw [c1_predict_rank_fields, hr]
    decide

/-- C3 (amended): for every rank sequence of length ≥ 2 (the index
variance is automatically nonzero), `predict_rank` evaluates the fitted
OLS line at index n to obtain `predicted` and returns predicted_rank =
max(1, trunc(predicted)), range_min = max(1, trunc(predicted − 1.5·σ)),
range_max = trunc(predicted + 1.5·σ), where σ is the unbiased sample
standard deviation and trunc is truncation toward zero (range_max is not
floored at 1). -/
theorem C3_predict_formula (l : List ℤ) (hl : 2 ≤ l.length) :
    predict_rank l =
      { predicted_rank := max 1 (pytrunc (specPredict l))
        min := max 1 (pytrunc (specPredict l - 1.5 * specStdev l))
        max := pytrunc (specPredict l + 1.5 * specStdev l) } :=
  predict_rank_eq l hl

/-- Witness for C3 (amended) at the concrete input [1, 2]. -/
theorem C3_predict_formula_witness :
    2 ≤ ([1, 2] : List ℤ).length ∧
      predict_rank [1, 2] =
        { predicted_rank := max 1 (pytrunc (specPredict [1, 2]))
          min := max 1 (pytrunc (specPredict [1, 2] - 1.5 * specStdev [1, 2]))
          max := pytrunc (specPredict [1, 2] + 1.5 * specStdev [1, 2]) } :=
  ⟨by norm_num, C3_predict_formula [1, 2] (by norm_num)⟩

/-- Witness for C5 at the empty list (STABLE) and at a concrete two-element
list. -/
theorem C5_trend_classification_witness :
    ((([] : List Obs).length < 2 ∧ (calculate_trend []).1 = "稳定") ∧
      (2 ≤ ([⟨2020, none, 100⟩, ⟨2021, none, 400⟩] : List Obs).length ∧
        ((calculate_trend [⟨2020, none, 100⟩, ⟨2021, none, 400⟩]).1 = "上升" ↔
          specSlope (([⟨2020, none, 100⟩, ⟨2021, none, 400⟩] :
            List Obs).map (fun d => d.min_rank)) < -100))) :=
  ⟨⟨by decide, (C5_trend_classification []).1 (by decide)⟩,
    ⟨by decide, ((C5_trend_classification
      [⟨2020, none, 100⟩, ⟨2021, none, 400⟩]).2 (by decide)).1⟩⟩

/-! ### Claim C7 -/

/-- C7: `calculate_volatility` returns exactly 0.0 for sequences of length
0 or 1, and for length ≥ 2 returns the unbiased sample standard deviation:
the square root of the sum of squared deviations from the mean divided by
n − 1. -/
theorem C7_volatility_spec (l : List ℤ) :
    (l.length < 2 → calculate_volatility l = 0) ∧
      (2 ≤ l.length → calculate_volatility l =
        Real.sqrt ((∑ i ∈ Finset.range l.length,
          ((l.getD i 0 : ℝ) -
            (∑ j ∈ Finset.range l.length, (l.getD j 0 : ℝ)) / l.length) ^ 2) /
          ((l.length : ℝ) - 1))) := by
  constructor
  · intro h
    unfold calculate_volatility
    rw [if_pos h]
    norm_num
  · intro h
    rw [volatility_eq_specStdev l h]
    rfl

/-- Witness for C7 at the empty list and at [1, 2]. -/
theorem C7_volatility_spec_witness :
    ((([] : List ℤ).length < 2 ∧ calculate_volatility [] = 0) ∧
      (2 ≤ ([1, 2] : List ℤ).length ∧ calculate_volatility [1, 2] =
        Real.sqrt ((∑ i ∈ Finset.range ([1, 2] : List ℤ).length,
          ((([1, 2] : List ℤ).getD i 0 : ℝ) -
            (∑ j ∈ Finset.range ([1, 2] : List ℤ).length,
              (([1, 2] : List ℤ).getD j 0 : ℝ)) / ([1, 2] : List ℤ).length) ^ 2) /
          ((([1, 2] : List ℤ).length : ℝ) - 1)))) :=
  ⟨⟨by decide, (C7_volatility_spec []).1 (by decide)⟩,
    ⟨by decide, (C7_volatility_spec [1, 2]).2 (by decide)⟩⟩

/-! ### Claim C4 -/

/-- C4 counterexample: the claim quantifies over every volatility value,
but for negative volatility the band is inverted and the biconditionals
fail: with candidate 50, predicted 0, volatility −100 we have
50 > 0 + 1.5·(−100) = −150, yet the code returns LOW ("低风险"), not HIGH. -/
theorem C4_negative_volatility_counterexample :
    ((0 : ℤ) : ℝ) + 1.5 * (-100 : ℝ) < ((50 : ℤ) : ℝ) ∧
      get_risk_level 50 0 (-100) ≠ "高风险" := by
  constructor
  · push_cast
    norm_num
  · have h : get_risk_level 50 0 (-100) = "低风险" := by
      unfold get_risk_level
      rw [if_pos (by push_cast; norm_num)]
    rw [h]
    decide

/-- C4 (amended): for every candidate rank, predicted rank and NONNEGATIVE
volatility, `get_risk_level` returns LOW ("低风险") iff candidate <
predicted − 1.5·volatility, HIGH ("高风险") iff candidate > predicted +
1.5·volatility, and MEDIUM ("中风险") iff the candidate lies in the closed
band; boundaries are inclusive on the MEDIUM side and the band is not
floored at 1. -/
theorem C4_risk_iff (student predicted : ℤ) (v : ℝ) (hv : 0 ≤ v) :
    (get_risk_level student predicted v = "低风险" ↔
      (student : ℝ) < (predicted : ℝ) - 1.5 * v) ∧
    (get_risk_level student predicted v = "高风险" ↔
      (predicted : ℝ) + 1.5 * v < (student : ℝ)) ∧
    (get_risk_level student predicted v = "中风险" ↔
      ((predicted : ℝ) - 1.5 * v ≤ (student : ℝ) ∧
        (student : ℝ) ≤ (predicted : ℝ) + 1.5 * v)) := by
  unfold get_risk_level
  dsimp only
  split_ifs with h1 h2
  · exact ⟨iff_of_true rfl h1,
      iff_of_false (by decide) (by intro hgt; linarith),
      iff_of_false (by decide) (fun hc => absurd h1 (not_lt.mpr hc.1))⟩
  · exact ⟨iff_of_false (by decide) h1,
      iff_of_false (by decide) (not_lt.mpr h2),
      iff_of_true rfl ⟨not_lt.mp h1, h2⟩⟩
  · exact ⟨iff_of_false (by decide) h1,
      iff_of_true rfl (not_le.mp h2),
      iff_of_false (by decide) (fun hc => absurd hc.2 h2)⟩

/-- Witness for C4 (amended) at candidate 6200, predicted 5766,
volatility 602. -/
theorem C4_risk_iff_witness :
    (0 : ℝ) ≤ 602 ∧
      ((get_risk_level 6200 5766 602 = "低风险" ↔
        ((6200 : ℤ) : ℝ) < ((5766 : ℤ) : ℝ) - 1.5 * 602) ∧
      (get_risk_level 6200 5766 602 = "高风险" ↔
        ((5766 : ℤ) : ℝ) + 1.5 * 602 < ((6200 : ℤ) : ℝ)) ∧
      (get_risk_level 6200 5766 602 = "中风险" ↔
        (((5766 : ℤ) : ℝ) - 1.5 * 602 ≤ ((6200 : ℤ) : ℝ) ∧
          ((6200 : ℤ) : ℝ) ≤ ((5766 : ℤ) : ℝ) + 1.5 * 602))) :=
  ⟨by norm_num, C4_risk_iff 6200 5766 602 (by norm_num)⟩

/-! ### Claim C6 -/

/-- C6: `get_volatility_level` returns LOW ("低") iff value < 300, MEDIUM
("中") iff 300 ≤ value < 800, HIGH ("高") iff value ≥ 800 (band boundaries
inclusive on the lower side); in particular 299.9 → LOW, 300 → MEDIUM,
799.9 → MEDIUM, 800 → HIGH. -/
theorem C6_volatility_level (v : ℝ) :
    (v < 300 → get_volatility_level v = "低") ∧
    (300 ≤ v → v < 800 → get_volatility_level v = "中") ∧
    (800 ≤ v → get_volatility_level v = "高") ∧
    get_volatility_level 299.9 = "低" ∧
    get_volatility_level 300 = "中" ∧
    get_volatility_level 799.9 = "中" ∧
    get_volatility_level 800 = "高" := by
  refine ⟨?_, ?_, ?_, ?_, ?_, ?_, ?_⟩
  · intro h
    unfold get_volatility_level
    rw [if_pos h]
  · intro h1 h2
    unfold get_volatility_level
    rw [if_neg (not_lt.mpr h1), if_pos h2]
  · intro h
    unfold get_volatility_level
    rw [if_neg (not_lt.mpr (by linarith)), if_neg (not_lt.mpr h)]
  · unfold get_volatility_level
    rw [if_pos (by norm_num)]
  · unfold get_volatility_level
    rw [if_neg (by norm_num), if_pos (by norm_num)]
  · unfold get_volatility_level
    rw [if_neg (by norm_num), if_pos (by norm_num)]
  · unfold get_volatility_level
    rw [if_neg (by norm_num), if_neg (by norm_num)]

/-- Witness for C6 at 100, 500 and 900. -/
theorem C6_volatility_level_witness :
    ((100 : ℝ) < 300 ∧ get_volatility_level 100 = "低") ∧
      ((300 : ℝ) ≤ 500 ∧ (500 : ℝ) < 800 ∧ get_volatility_level 500 = "中") ∧
      ((800 : ℝ) ≤ 900 ∧ get_volatility_level 900 = "高") :=
  ⟨⟨by norm_num, (C6_volatility_level 100).1 (by norm_num)⟩,
    ⟨by norm_num, by norm_num,
      (C6_volatility_level 500).2.1 (by norm_num) (by norm_num)⟩,
    ⟨by norm_num, (C6_volatility_level 900).2.2.1 (by norm_num)⟩⟩

/-! ### Claim C9 -/

/-- C9: the admission-probability estimate follows the fixed piecewise
table on the ratio candidate/avg: <0.85 → 95, <0.95 → 70, <1.05 → 50,
<1.15 → 30, <1.3 → 15, otherwise 5; and avg = 0 yields 0. -/
theorem C9_admission_probability (r : ℤ) (a : ℝ) :
    (a = 0 → calculate_admission_probability r a = 0) ∧
    (a ≠ 0 →
      ((r : ℝ) / a < 0.85 → calculate_admission_probability r a = 95) ∧
      (0.85 ≤ (r : ℝ) / a → (r : ℝ) / a < 0.95 →
        calculate_admission_probability r a = 70) ∧
      (0.95 ≤ (r : ℝ) / a → (r : ℝ) / a < 1.05 →
        calculate_admission_probability r a = 50) ∧
      (1.05 ≤ (r : ℝ) / a → (r : ℝ) / a < 1.15 →
        calculate_admission_probability r a = 30) ∧
      (1.15 ≤ (r : ℝ) / a → (r : ℝ) / a < 1.3 →
        calculate_admission_probability r a = 15) ∧
      (1.3 ≤ (r : ℝ) / a → calculate_admission_probability r a = 5)) := by
  unfold calculate_admission_probability
  dsimp only
  constructor
  · intro h
    rw [if_pos h]
  · intro ha
    rw [if_neg ha]
    refine ⟨fun h1 => ?_, fun h1 h2 => ?_, fun h1 h2 => ?_, fun h1 h2 => ?_,
      fun h1 h2 => ?_, fun h1 => ?_⟩
    · rw [if_pos h1]
    · rw [if_neg (not_lt.mpr h1), if_pos h2]
    · rw [if_neg (not_lt.mpr (by linarith)), if_neg (not_lt.mpr h1),
        if_pos h2]
    · rw [if_neg (not_lt.mpr (by linarith)), if_neg (not_lt.mpr (by linarith)),
        if_neg (not_lt.mpr h1), if_pos h2]
    · rw [if_neg (not_lt.mpr (by linarith)), if_neg (not_lt.mpr (by linarith)),
        if_neg (not_lt.mpr (by linarith)), if_neg (not_lt.mpr h1),
        if_pos h2]
    · rw [if_neg (not_lt.mpr (by linarith)), if_neg (not_lt.mpr (by linarith)),
        if_neg (not_lt.mpr (by linarith)), if_neg (not_lt.mpr (by linarith)),
        if_neg (not_lt.mpr h1)]

/-- Witness for C9 at avg = 0 and at candidate 100, avg 100 (ratio 1). -/
theorem C9_admission_probability_witness :
    ((0 : ℝ) = 0 ∧ calculate_admission_probability 7 0 = 0) ∧
      ((100 : ℝ) ≠ 0 ∧ (0.95 : ℝ) ≤ ((100 : ℤ) : ℝ) / 100 ∧
        ((100 : ℤ) : ℝ) / 100 < 1.05 ∧
        calculate_admission_probability 100 100 = 50) :=
  ⟨⟨rfl, (C9_admission_probability 7 0).1 rfl⟩,
    ⟨by norm_num, by norm_num, by norm_num,
      ((C9_admission_probability 100 100).2 (by norm_num)).2.2.1
        (by norm_num) (by norm_num)⟩⟩

/-! ### Claim C10 -/

set_option maxHeartbeats 1000000 in
/-- C10: for every fixed positive average rank, the admission-probability
estimate is monotonically non-increasing in the candidate rank. -/
theorem C10_probability_monotone (r1 r2 : ℤ) (a : ℝ) (ha : 0 < a)
    (hr : r1 ≤ r2) :
    calculate_admission_probability r2 a ≤
      calculate_admission_probability r1 a := by
  have hne : a ≠ 0 := ne_of_gt ha
  have hdiv : (r1 : ℝ) / a ≤ (r2 : ℝ) / a :=
    (div_le_div_iff_of_pos_right ha).mpr (by exact_mod_cast hr)
  unfold calculate_admission_probability
  dsimp only
  rw [if_neg hne, if_neg hne]
  split_ifs <;> linarith

/-- Witness for C10 at candidate ranks 50 ≤ 200 with average rank 100. -/
theorem C10_probability_monotone_witness :
    (0 : ℝ) < 100 ∧ (50 : ℤ) ≤ 200 ∧
      calculate_admission_probability 200 100 ≤
        calculate_admission_probability 50 100 :=
  ⟨by norm_num, by norm_num,
    C10_probability_monotone 50 200 100 (by norm_num) (by norm_num)⟩
